import Mathlib

/-!
# Verification of the rigid-ipc CCD core against its specification

Shallow embedding of the continuous-collision-detection core of the
repository: exact rational intervals, the certified bisection root finder,
the narrow-phase time-of-impact drivers, impact canonicalization and
pruning, the `State` scene container, the distance-barrier problem's
JSON state export and multiprecision constraint stub, and the scene
JSON (de)serialization helpers.

Machine doubles are modelled as exact rationals (`ℚ`); the interval type
carries exact endpoints (outward rounding is the identity for exact
arithmetic).  The file is organised as definitions first, theorems after.
-/

namespace RigidIPC

/-! ## Interval arithmetic (spec §4.1)

A closed interval `[lo, hi]` with rational endpoints. Only the operations
the embedded code paths use are defined. -/

/-- A closed interval with rational endpoints. -/
structure Itv where
  lo : ℚ
  hi : ℚ
deriving DecidableEq, Repr

namespace Itv

/-- `zero_in(I)`: true iff `0 ∈ I`. -/
def zeroIn (I : Itv) : Bool := decide (I.lo ≤ 0 ∧ 0 ≤ I.hi)

/-- Width of an interval. -/
def width (I : Itv) : ℚ := I.hi - I.lo

/-- Midpoint of an interval. -/
def mid (I : Itv) : ℚ := (I.lo + I.hi) / 2

/-- Interval addition. -/
def add (I J : Itv) : Itv := ⟨I.lo + J.lo, I.hi + J.hi⟩

/-- Interval subtraction. -/
def sub (I J : Itv) : Itv := ⟨I.lo - J.hi, I.hi - J.lo⟩

/-- Interval negation. -/
def neg (I : Itv) : Itv := ⟨-I.hi, -I.lo⟩

/-- Interval multiplication: hull of the four endpoint products. -/
def mul (I J : Itv) : Itv :=
  ⟨min (min (I.lo * J.lo) (I.lo * J.hi)) (min (I.hi * J.lo) (I.hi * J.hi)),
   max (max (I.lo * J.lo) (I.lo * J.hi)) (max (I.hi * J.lo) (I.hi * J.hi))⟩

/-- The degenerate (point) interval of a rational. -/
def pt (q : ℚ) : Itv := ⟨q, q⟩

end Itv

/-! ## Certified root finder

Modelled from the spec: the implementation of `interval_root_finder`
(`src/interval/interval_root_finder.cpp`) is not among the provided source
files; only its callers are.  Spec §4.2: a LIFO stack of subintervals,
initialized with the domain; pop `I`, evaluate `D = f(I)`; if `0 ∉ D`
discard; else if `width(I) ≤ tol` return `I` when `inside_predicate(I)`
holds, else discard; else split at `mid(I)`, pushing the right child then
the left child so the left is processed first.  A fuel parameter makes the
recursion structural; exhausting fuel reports no root found. -/

/-- Certified bisection root finder over a stack of candidate intervals. -/
def intervalRootFinderAux (f : Itv → Itv) (inside : Itv → Bool) (tol : ℚ) :
    ℕ → List Itv → Option Itv
  | 0, _ => none
  | _ + 1, [] => none
  | fuel + 1, I :: stack =>
    if (f I).zeroIn then
      if I.width ≤ tol then
        if inside I then some I
        else intervalRootFinderAux f inside tol fuel stack
      else
        intervalRootFinderAux f inside tol fuel
          (⟨I.lo, I.mid⟩ :: ⟨I.mid, I.hi⟩ :: stack)
    else intervalRootFinderAux f inside tol fuel stack

/-- `interval_root_finder(f, inside_predicate, domain, tol)`. -/
def intervalRootFinder (f : Itv → Itv) (inside : Itv → Bool) (domain : Itv)
    (tol : ℚ) (fuel : ℕ) : Option Itv :=
  intervalRootFinderAux f inside tol fuel [domain]

/-! ## Narrow-phase TOI driver (src/unnamed/part_001, part_002)

Every narrow-phase variant (`compute_edge_vertex_time_of_impact`,
`compute_edge_edge_time_of_impact`, `compute_face_vertex_time_of_impact`
and their `_redon` forms) shares the same driver shape: feed a geometric
distance function and an inside predicate through the certified root
finder on the domain `Interval(0, earliest_toi)` and return
`toi = toi_interval.lower()` together with the hit flag.  The driver is
embedded generically in the two closures, exactly as the source wraps
them. -/

/-- The shared driver: returns `(is_impacting, toi)` with
`toi = toi_interval.lower()` on a hit and an unspecified `0` otherwise
(the C++ leaves `toi_interval` default-initialized in that case). -/
def computeTimeOfImpact (distance : Itv → Itv) (inside : Itv → Bool)
    (earliestToi tol : ℚ) (fuel : ℕ) : Bool × ℚ :=
  match intervalRootFinder distance inside ⟨0, earliestToi⟩ tol fuel with
  | some I => (true, I.lo)
  | none => (false, 0)

/-- Stack invariant: every interval on the stack sits inside `[lo, hi]`
with ordered endpoints. -/
def stackInDomain (lo hi : ℚ) (stack : List Itv) : Prop :=
  ∀ J ∈ stack, lo ≤ J.lo ∧ J.lo ≤ J.hi ∧ J.hi ≤ hi

/-! ## 3D edge-edge inside predicate (src/unnamed/part_001)

`compute_edge_edge_time_of_impact` passes the closure
`is_intersection_inside_edges` to the certified root finder.  Its body,
after obtaining the four world vertices of the two edges at time `t`,
computes `r = edgeA_vertex1 - edgeA_vertex0`, `s = edgeB_vertex1 -
edgeB_vertex0`, `rxs = r × s`; if `zero_in(rxs.squaredNorm())` it returns
`false`, and otherwise it throws
`NotImplementedError("Edge-edge inside test not implemented!")`.  The
predicate is embedded on the four interval vertex vectors (the value of
the `vertex_positions` closure at `t`); a throw is an `Except.error`. -/

/-- A 3-vector of intervals. -/
structure IVec3 where
  x : Itv
  y : Itv
  z : Itv
deriving DecidableEq, Repr

namespace IVec3

/-- Componentwise interval vector subtraction. -/
def sub (a b : IVec3) : IVec3 := ⟨a.x.sub b.x, a.y.sub b.y, a.z.sub b.z⟩

/-- Interval cross product. -/
def cross (a b : IVec3) : IVec3 :=
  ⟨(a.y.mul b.z).sub (a.z.mul b.y),
   (a.z.mul b.x).sub (a.x.mul b.z),
   (a.x.mul b.y).sub (a.y.mul b.x)⟩

/-- Interval squared norm: `x*x + y*y + z*z`. -/
def squaredNorm (a : IVec3) : Itv :=
  (a.x.mul a.x).add ((a.y.mul a.y).add (a.z.mul a.z))

end IVec3

/-- Typed failure surfaced at the core boundary (spec §7). -/
inductive CoreError where
  | notImplemented
deriving DecidableEq, Repr

/-- `is_intersection_inside_edges` of `compute_edge_edge_time_of_impact`
(src/unnamed/part_001): returns `false` when the interval enclosure of
`‖r × s‖²` contains zero, and otherwise throws `NotImplementedError`. -/
def isIntersectionInsideEdges (edgeA_vertex0 edgeA_vertex1
    edgeB_vertex0 edgeB_vertex1 : IVec3) : Except CoreError Bool :=
  let r := edgeA_vertex1.sub edgeA_vertex0
  let s := edgeB_vertex1.sub edgeB_vertex0
  let rxs := r.cross s
  if (rxs.squaredNorm).zeroIn then .ok false
  else .error .notImplemented

/-- A rational 3-vector (world vertex position at a fixed time). -/
structure Vec3 where
  x : ℚ
  y : ℚ
  z : ℚ
deriving DecidableEq, Repr

namespace Vec3

/-- Vector subtraction. -/
def sub (a b : Vec3) : Vec3 := ⟨a.x - b.x, a.y - b.y, a.z - b.z⟩

/-- Vector addition. -/
def add (a b : Vec3) : Vec3 := ⟨a.x + b.x, a.y + b.y, a.z + b.z⟩

/-- Scalar multiplication. -/
def smul (q : ℚ) (a : Vec3) : Vec3 := ⟨q * a.x, q * a.y, q * a.z⟩

/-- Cross product of rational 3-vectors. -/
def crossQ (a b : Vec3) : Vec3 :=
  ⟨a.y * b.z - a.z * b.y, a.z * b.x - a.x * b.z, a.x * b.y - a.y * b.x⟩

/-- The degenerate interval vector of a rational vector. -/
def toIVec3 (v : Vec3) : IVec3 := ⟨Itv.pt v.x, Itv.pt v.y, Itv.pt v.z⟩

end Vec3

/-- The spec-side geometric condition of claim C2: the intersection of
the two supporting lines lies inside both edge segments. -/
def segIntersectionInsideBoth (p0 p1 q0 q1 : Vec3) : Prop :=
  ∃ a b : ℚ, 0 ≤ a ∧ a ≤ 1 ∧ 0 ≤ b ∧ b ≤ 1 ∧
    p0.add (Vec3.smul a (p1.sub p0)) = q0.add (Vec3.smul b (q1.sub q0))

/-! ## Impact records (spec §3) -/

/-- `EdgeVertexImpact`: `{time τ, edge_index, vertex_index, alpha}`. -/
structure EdgeVertexImpact where
  time : ℚ
  edge_index : ℕ
  vertex_index : ℕ
  alpha : ℚ
deriving DecidableEq, Repr

/-- `EdgeEdgeImpact`: `{time τ, edge_a, alpha_a, edge_b, alpha_b}`. -/
structure EdgeEdgeImpact where
  time : ℚ
  edge_a : ℕ
  alpha_a : ℚ
  edge_b : ℕ
  alpha_b : ℚ
deriving DecidableEq, Repr

/-- Modelled from the spec: the comparator `compare_impacts_by_time` used
by `State::detect_edge_vertex_collisions` is not among the provided source
files.  Spec §4.5: EV impacts are sorted ascending by `τ`, ties broken by
`(edge_index, vertex_index)` lexicographically. -/
def evLE (a b : EdgeVertexImpact) : Prop :=
  a.time < b.time ∨ (a.time = b.time ∧ (a.edge_index < b.edge_index ∨
    (a.edge_index = b.edge_index ∧ a.vertex_index ≤ b.vertex_index)))

instance : DecidableRel evLE := fun a b => by unfold evLE; infer_instance

instance : IsTotal EdgeVertexImpact evLE :=
  ⟨by
    intro a b
    unfold evLE
    rcases lt_trichotomy a.time b.time with h | h | h
    · exact Or.inl (Or.inl h)
    · rcases lt_trichotomy a.edge_index b.edge_index with h' | h' | h'
      · exact Or.inl (Or.inr ⟨h, Or.inl h'⟩)
      · rcases le_total a.vertex_index b.vertex_index with h'' | h''
        · exact Or.inl (Or.inr ⟨h, Or.inr ⟨h', h''⟩⟩)
        · exact Or.inr (Or.inr ⟨h.symm, Or.inr ⟨h'.symm, h''⟩⟩)
      · exact Or.inr (Or.inr ⟨h.symm, Or.inl h'⟩)
    · exact Or.inr (Or.inl h)⟩

instance : IsTrans EdgeVertexImpact evLE :=
  ⟨by
    intro a b c hab hbc
    unfold evLE at hab hbc ⊢
    rcases hab with h1 | ⟨e1, h1⟩
    · rcases hbc with h2 | ⟨e2, _⟩
      · exact Or.inl (lt_trans h1 h2)
      · exact Or.inl (e2 ▸ h1)
    · rcases hbc with h2 | ⟨e2, h2⟩
      · exact Or.inl (e1 ▸ h2)
      · refine Or.inr ⟨e1.trans e2, ?_⟩
        rcases h1 with h1 | ⟨f1, h1⟩
        · rcases h2 with h2 | ⟨f2, _⟩
          · exact Or.inl (lt_trans h1 h2)
          · exact Or.inl (f2 ▸ h1)
        · rcases h2 with h2 | ⟨f2, h2⟩
          · exact Or.inl (f1 ▸ h2)
          · exact Or.inr ⟨f1.trans f2, le_trans h1 h2⟩⟩

/-- Modelled from the spec: `convert_edge_vertex_to_edge_edge_impacts` is
not among the provided source files.  Spec §4.5: each EV impact is lifted
to an EE impact for every edge `e'` containing the struck vertex,
emitting `(τ, e, α, e', α')`; `α'` is `0` when the struck vertex is the
first endpoint of `e'` and `1` when it is the second. -/
def convert_edge_vertex_to_edge_edge_impacts (edges : List (ℕ × ℕ))
    (ev_impacts : List EdgeVertexImpact) : List EdgeEdgeImpact :=
  ev_impacts.flatMap (fun ev =>
    edges.enum.filterMap (fun ie =>
      if ie.2.1 = ev.vertex_index then
        some ⟨ev.time, ev.edge_index, ev.alpha, ie.1, 0⟩
      else if ie.2.2 = ev.vertex_index then
        some ⟨ev.time, ev.edge_index, ev.alpha, ie.1, 1⟩
      else none))

/-- Index (counting from `i`) and time of the earliest impact in the list
involving edge `e`; the leftmost impact wins ties. -/
def earliestImpactAux (e : ℕ) : List EdgeEdgeImpact → ℕ → Option (ℕ × ℚ)
  | [], _ => none
  | imp :: rest, i =>
    let tail := earliestImpactAux e rest (i + 1)
    if imp.edge_a = e ∨ imp.edge_b = e then
      match tail with
      | none => some (i, imp.time)
      | some (j, t) => if imp.time ≤ t then some (i, imp.time) else some (j, t)
    else tail

/-- Modelled from the spec: `prune_impacts` is not among the provided
source files.  Spec §4.5: for each edge `e`, record the index of the
earliest EE impact involving `e`, or `−1` if there is none. -/
def prune_impacts (ee_impacts : List EdgeEdgeImpact) (num_edges : ℕ) :
    List ℤ :=
  (List.range num_edges).map (fun e =>
    match earliestImpactAux e ee_impacts 0 with
    | none => -1
    | some je => (je.1 : ℤ))

/-! ## Matrices and scene JSON (src/unnamed/part_004)

`ccd::io::to_json` turns an Eigen matrix into a `std::vector` of row
`std::vector`s (a JSON array of arrays) and a vector into a flat list;
`from_json` maps back, resizing the output matrix only when the list of
rows is non-empty.  An Eigen matrix is modelled with explicit row and
column counts plus its rectangular row-major data. -/

/-- An `Eigen::MatrixX<T>`: dimensions plus row-major data.  Eigen
guarantees rectangularity, captured by `MatrixX.wf`. -/
structure MatrixX (T : Type) where
  rows : ℕ
  cols : ℕ
  data : List (List T)
deriving DecidableEq, Repr

/-- Rectangularity invariant of an Eigen matrix. -/
def MatrixX.wf {T : Type} (m : MatrixX T) : Prop :=
  m.data.length = m.rows ∧ ∀ row ∈ m.data, row.length = m.cols

/-- A default-constructed (0×0) Eigen matrix. -/
def defaultMatrix (T : Type) : MatrixX T := ⟨0, 0, []⟩

/-- The `rows × cols` zero matrix over ℚ. -/
def zeroMatrix (rows cols : ℕ) : MatrixX ℚ :=
  ⟨rows, cols, List.replicate rows (List.replicate cols 0)⟩

/-- `ccd::io::to_json` on a matrix: the nested array of its rows. -/
def matrix_to_json {T : Type} (matrix : MatrixX T) : List (List T) :=
  matrix.data

/-- `ccd::io::from_json` on a matrix: if the row list is empty the output
matrix is left untouched (the C++ returns early without resizing);
otherwise the matrix is resized to `num_rows × list[0].size()` and each
row is copied. -/
def matrix_from_json {T : Type} (json : List (List T)) (matrix : MatrixX T) :
    MatrixX T :=
  if json.length = 0 then matrix
  else ⟨json.length, (json.headD []).length, json⟩

/-- `ccd::io::to_json` on a vector: the flat list of entries. -/
def vector_to_json {T : Type} (vector : List T) : List T := vector

/-- `ccd::io::from_json` on a vector: `Eigen::Map` copy of the list. -/
def vector_from_json {T : Type} (json : List T) : List T := json

/-! ## The `State` scene container (src/src/state.cpp) -/

/-- Componentwise addition of 2D row vectors. -/
def p2add (a b : ℚ × ℚ) : ℚ × ℚ := (a.1 + b.1, a.2 + b.2)

/-- Componentwise subtraction of 2D row vectors. -/
def p2sub (a b : ℚ × ℚ) : ℚ × ℚ := (a.1 - b.1, a.2 - b.2)

/-- Scaling of a 2D row vector. -/
def p2smul (s : ℚ) (a : ℚ × ℚ) : ℚ × ℚ := (s * a.1, s * a.2)

/-- Columnwise minimum (`colwise().minCoeff()`) of a vertex list. -/
def colwiseMin : List (ℚ × ℚ) → ℚ × ℚ
  | [] => (0, 0)
  | p :: rest => rest.foldl (fun acc q => (min acc.1 q.1, min acc.2 q.2)) p

/-- Columnwise maximum (`colwise().maxCoeff()`) of a vertex list. -/
def colwiseMax : List (ℚ × ℚ) → ℚ × ℚ
  | [] => (0, 0)
  | p :: rest => rest.foldl (fun acc q => (max acc.1 q.1, max acc.2 q.2)) p

/-- Columnwise sum of a vertex list. -/
def colwiseSum (l : List (ℚ × ℚ)) : ℚ × ℚ := l.foldl p2add (0, 0)

/-- Columnwise mean (`colwise().mean()`) of a vertex list. -/
def colwiseMean (l : List (ℚ × ℚ)) : ℚ × ℚ :=
  ((colwiseSum l).1 / (l.length : ℚ), (colwiseSum l).2 / (l.length : ℚ))

/-- IEEE-faithful `std::min(a/b, c/d)` for the canvas-fit scale, where
the numerators are positive canvas half-extents: a zero denominator
yields `+∞` in doubles and thus never wins the `min` (the call site's
guard rules out both denominators being zero). -/
def ieeeMinDiv (a b c d : ℚ) : ℚ :=
  if b = 0 then c / d else if d = 0 then a / b else min (a / b) (c / d)

/-- The canvas-fit step of `State::load_scene`: build
`all_vertices = [vertices; vertices + displacements]`, take its bounding
box and columnwise mean, and when the box exceeds the canvas rescale the
centered vertices and the displacements by
`min(canvas_width·0.5/bbox_x, canvas_height·0.5/bbox_y)`. -/
def fitToCanvas (canvas_width canvas_height : ℚ)
    (vertices displacements : List (ℚ × ℚ)) :
    List (ℚ × ℚ) × List (ℚ × ℚ) :=
  let all_vertices := vertices ++ List.zipWith p2add vertices displacements
  let v_min := colwiseMin all_vertices
  let v_max := colwiseMax all_vertices
  let center := colwiseMean all_vertices
  let bbox := p2sub v_max v_min
  if bbox.1 > canvas_width ∨ bbox.2 > canvas_height then
    let scale := ieeeMinDiv (canvas_width * (1/2)) bbox.1
      (canvas_height * (1/2)) bbox.2
    (vertices.map (fun v => p2smul scale (p2sub v center)),
     displacements.map (p2smul scale))
  else (vertices, displacements)

/-- The mutable scene/state container of `src/src/state.cpp`. -/
structure State where
  vertices : List (ℚ × ℚ)
  edges : List (ℕ × ℕ)
  displacements : List (ℚ × ℚ)
  opt_displacements : List (ℚ × ℚ)
  volumes : List ℚ
  edge_impact_map : List ℤ
  volume_grad : MatrixX ℚ
  ev_impacts : List EdgeVertexImpact
  ee_impacts : List EdgeEdgeImpact
  num_pruned_impacts : ℕ
  current_edge : ℤ
  current_ev_impact : ℤ
  time : ℚ
  opt_time : ℚ
  selected_displacements : List ℕ
  selected_points : List ℕ
  canvas_width : ℚ
  canvas_height : ℚ
  min_edge_width : ℚ

namespace State

/-- `State::reset_impacts`: zero the volume vector and gradient, set the
whole impact map to `−1`, and clear both impact lists.  `volume_grad` is
`vertices.size() × edges.rows()` where Eigen's `size()` of an `n×2`
matrix is `2n`. -/
def reset_impacts (s : State) : State :=
  { s with
    volumes := List.replicate s.edges.length 0,
    edge_impact_map := List.replicate s.edges.length (-1),
    volume_grad := zeroMatrix (2 * s.vertices.length) s.edges.length,
    ev_impacts := [],
    ee_impacts := [] }

/-- `State::reset_scene`. -/
def reset_scene (s : State) : State :=
  let s1 := s.reset_impacts
  { s1 with
    current_edge := -1,
    current_ev_impact := -1,
    time := 0,
    opt_time := 0,
    selected_displacements := [],
    selected_points := [],
    opt_displacements := List.replicate s1.displacements.length (0, 0) }

/-- `State::load_scene`: read the scene, fit it to the canvas, reset.
The file I/O (`io::read_scene`) is a scene-I/O collaborator outside the
core; the parsed `(vertices, edges, displacements)` triple is passed in
directly. -/
def load_scene (s : State) (vertices : List (ℚ × ℚ)) (edges : List (ℕ × ℕ))
    (displacements : List (ℚ × ℚ)) : State :=
  let fitted := fitToCanvas s.canvas_width s.canvas_height vertices
    displacements
  reset_scene { s with
    vertices := fitted.1, edges := edges, displacements := fitted.2 }

/-- `State::add_vertex`: append the position, a default displacement
`(0, −0.1)`, re-zero `opt_displacements`, and reset impacts. -/
def add_vertex (s : State) (position : ℚ × ℚ) : State :=
  reset_impacts { s with
    vertices := s.vertices ++ [position],
    displacements := s.displacements ++ [(0, -(1/10))],
    opt_displacements :=
      List.replicate (s.opt_displacements.length + 1) (0, 0) }

/-- `State::add_edges`: append the new edges and reset impacts (the
intermediate `conservativeResize` of `edge_impact_map` and `volumes`
leaves entries `reset_impacts` immediately overwrites). -/
def add_edges (s : State) (new_edges : List (ℕ × ℕ)) : State :=
  reset_impacts { s with edges := s.edges ++ new_edges }

/-- `State::set_vertex_position`. -/
def set_vertex_position (s : State) (vertex_idx : ℕ) (position : ℚ × ℚ) :
    State :=
  reset_impacts { s with vertices := s.vertices.set vertex_idx position }

/-- `State::move_vertex`. -/
def move_vertex (s : State) (vertex_idx : ℕ) (delta : ℚ × ℚ) : State :=
  reset_impacts { s with
    vertices := s.vertices.set vertex_idx
      (p2add (s.vertices.getD vertex_idx (0, 0)) delta) }

/-- `State::move_displacement`. -/
def move_displacement (s : State) (vertex_idx : ℕ) (delta : ℚ × ℚ) : State :=
  reset_impacts { s with
    displacements := s.displacements.set vertex_idx
      (p2add (s.displacements.getD vertex_idx (0, 0)) delta) }

/-- `State::detect_edge_vertex_collisions`: detect EV impacts (the
detection itself lives in collaborator code; the detected list is passed
in), sort them by time, convert to EE impacts, and prune to the per-edge
earliest impact. -/
def detect_edge_vertex_collisions (s : State)
    (detected : List EdgeVertexImpact) : State :=
  let evs := List.insertionSort evLE detected
  let ees := convert_edge_vertex_to_edge_edge_impacts s.edges evs
  { s with
    ev_impacts := evs,
    ee_impacts := ees,
    edge_impact_map := prune_impacts ees s.edges.length,
    num_pruned_impacts :=
      (prune_impacts ees s.edges.length).countP (fun x => decide (0 ≤ x)) }

end State

/-- The cleared-impacts configuration claim C9 speaks about. -/
def impactsCleared (s : State) : Prop :=
  s.ev_impacts = [] ∧ s.ee_impacts = [] ∧
  s.volumes = List.replicate s.edges.length 0 ∧
  s.edge_impact_map = List.replicate s.edges.length (-1) ∧
  s.volume_grad = zeroMatrix (2 * s.vertices.length) s.edges.length

/-! ## Spec-level 2D edge-vertex TOI query (claim C5)

Modelled from the spec: the flat-vertex 2D
`compute_edge_vertex_time_of_impact(Vi, Vj, Vk, Ui, Uj, Uk, toi, alpha)`
exercised by the symmetry test (src/unnamed/part_000) is not among the
provided source files; only its test is.  Spec §4.4: the trajectory is
linear (`x(t) = V + t·U`), `f(t)` is the signed distance from the point
to the line through the edge, and the inside predicate asks the
projection parameter `α(t)` to lie in `[0,1]`.  Hit and time of impact
are characterised over ℝ: hit means the constraint set is non-empty and
the returned `τ` is its least element. -/

/-- Real 2D dot product. -/
noncomputable def dot2 (a b : ℝ × ℝ) : ℝ := a.1 * b.1 + a.2 * b.2

/-- Real 2D vector subtraction. -/
noncomputable def r2sub (a b : ℝ × ℝ) : ℝ × ℝ := (a.1 - b.1, a.2 - b.2)

/-- Real 2D vector addition. -/
noncomputable def r2add (a b : ℝ × ℝ) : ℝ × ℝ := (a.1 + b.1, a.2 + b.2)

/-- Real 2D scaling. -/
noncomputable def r2smul (s : ℝ) (a : ℝ × ℝ) : ℝ × ℝ := (s * a.1, s * a.2)

/-- The (non-normalized) segment normal, `perp(e1 − e0)`. -/
noncomputable def perp2 (a : ℝ × ℝ) : ℝ × ℝ := (a.2, -a.1)

/-- `point_line_signed_distance`: `(p − e0) · perp(e1 − e0)`. -/
noncomputable def point_line_signed_distance (p e0 e1 : ℝ × ℝ) : ℝ :=
  dot2 (r2sub p e0) (perp2 (r2sub e1 e0))

/-- The projection parameter `α` of `p` onto the segment `[e0, e1]`. -/
noncomputable def alphaProj (p e0 e1 : ℝ × ℝ) : ℝ :=
  dot2 (r2sub p e0) (r2sub e1 e0) / dot2 (r2sub e1 e0) (r2sub e1 e0)

/-- Linear trajectory `V + t·U`. -/
noncomputable def trajAt (V U : ℝ × ℝ) (t : ℝ) : ℝ × ℝ := r2add V (r2smul t U)

/-- The constraint set of the 2D EV query: times `t ∈ [0,1]` where the
moving vertex lies on the moving edge's line with projection parameter in
`[0,1]`. -/
def evConstraintSet (Vi Vj Vk Ui Uj Uk : ℝ × ℝ) : Set ℝ :=
  {t | 0 ≤ t ∧ t ≤ 1 ∧
    point_line_signed_distance (trajAt Vk Uk t) (trajAt Vi Ui t)
      (trajAt Vj Uj t) = 0 ∧
    0 ≤ alphaProj (trajAt Vk Uk t) (trajAt Vi Ui t) (trajAt Vj Uj t) ∧
    alphaProj (trajAt Vk Uk t) (trajAt Vi Ui t) (trajAt Vj Uj t) ≤ 1}

/-- The query reports a hit iff some valid impact time exists. -/
def evHasImpact (Vi Vj Vk Ui Uj Uk : ℝ × ℝ) : Prop :=
  (evConstraintSet Vi Vj Vk Ui Uj Uk).Nonempty

/-- `τ` is the time of impact of the query: the earliest valid time. -/
def evTimeOfImpactIs (Vi Vj Vk Ui Uj Uk : ℝ × ℝ) (τ : ℝ) : Prop :=
  IsLeast (evConstraintSet Vi Vj Vk Ui Uj Uk) τ

/-! ## Distance-barrier rigid-body problem
(src/src/problems/distance_barrier_rb_problem.cpp) -/

/-- A multiprecision (MPFR) scalar: its numeric value, possibly `+∞`,
together with its bit precision. -/
inductive MPValue where
  | inf
  | fin (q : ℚ)
deriving DecidableEq, Repr

/-- `Multiprecision(value, precision)`. -/
structure Multiprecision where
  value : MPValue
  precision : ℕ
deriving DecidableEq, Repr

/-- `DistanceBarrierRBProblem::eval_mp_g`: the multiprecision constraint
evaluator.  The whole multiprecision branch is commented out in the
source; the function unconditionally resizes the result to length 1 and
stores `Multiprecision(std::numeric_limits<double>::infinity(), 256)`. -/
def eval_mp_g (_sigma : List ℚ) : List Multiprecision :=
  [⟨MPValue.inf, 256⟩]

/-- Minimal JSON values for the state export. -/
inductive JValue where
  | null
  | num (q : ℚ)
deriving DecidableEq, Repr

/-- A JSON object as an association list. -/
def Json : Type := List (String × JValue)

/-- `json[key] = v`: replace any binding of `key` by `v`. -/
def jsonSet (j : Json) (key : String) (v : JValue) : Json :=
  (List.filter (fun kv => kv.1 ≠ key) j) ++ [(key, v)]

/-- Lookup of a key in a JSON object. -/
def jsonLookup (j : Json) (key : String) : Option JValue :=
  (List.find? (fun kv => kv.1 = key) j).map (fun kv => kv.2)

/-- `DistanceBarrierRBProblem::debug_min_distance`: the minimum of the
computed distance vector, or the sentinel `−1` when there are no
distance candidates. -/
def debug_min_distance : List ℚ → ℚ
  | [] => -1
  | x :: rest => rest.foldl min x

/-- `DistanceBarrierRBProblem::state`: extend the base problem's JSON
state with `min_distance`, which is `null` when the stored minimum
distance is negative and the numeric value otherwise. -/
def distanceBarrierState (base : Json) (debug_min_distance_ : ℚ) : Json :=
  if debug_min_distance_ < 0 then jsonSet base "min_distance" JValue.null
  else jsonSet base "min_distance" (JValue.num debug_min_distance_)

/-- A small concrete 2D scene (three collinear vertices joined by two
edges) used to exercise the embedded `State` operations at concrete
inputs. -/
def demoState : State where
  vertices := [(0, 0), (1, 0), (2, 0)]
  edges := [(0, 1), (1, 2)]
  displacements := [(0, 0), (0, 0), (0, 0)]
  opt_displacements := [(0, 0), (0, 0), (0, 0)]
  volumes := [0, 0]
  edge_impact_map := [-1, -1]
  volume_grad := zeroMatrix 6 2
  ev_impacts := []
  ee_impacts := []
  num_pruned_impacts := 0
  current_edge := -1
  current_ev_impact := -1
  time := 0
  opt_time := 0
  selected_displacements := []
  selected_points := []
  canvas_width := 10
  canvas_height := 10
  min_edge_width := 0

/-! ## Theorems -/

lemma intervalRootFinderAux_mem_domain (f : Itv → Itv) (inside : Itv → Bool)
    (tol : ℚ) (lo hi : ℚ) :
    ∀ (fuel : ℕ) (stack : List Itv), stackInDomain lo hi stack →
      ∀ I, intervalRootFinderAux f inside tol fuel stack = some I →
        lo ≤ I.lo ∧ I.lo ≤ I.hi ∧ I.hi ≤ hi := by
  intro fuel
  induction fuel with
  | zero => intro stack _ I h; simp [intervalRootFinderAux] at h
  | succ n ih =>
    intro stack hstack I h
    cases stack with
    | nil => simp [intervalRootFinderAux] at h
    | cons J rest =>
      have hJ := hstack J (List.mem_cons_self J rest)
      have hrest : stackInDomain lo hi rest := by
        intro K hK; exact hstack K (List.mem_cons_of_mem J hK)
      rw [intervalRootFinderAux] at h
      by_cases hz : (f J).zeroIn
      · simp only [hz, if_true] at h
        by_cases hw : J.width ≤ tol
        · simp only [hw, if_true] at h
          by_cases hin : inside J
          · simp only [hin, if_true] at h
            cases h
            exact hJ
          · simp only [hin, if_false] at h
            exact ih rest hrest I h
        · simp only [hw, if_false] at h
          have hmid₁ : J.lo ≤ J.mid := by
            have := hJ.2.1
            simp only [Itv.mid]
            linarith
          have hmid₂ : J.mid ≤ J.hi := by
            have := hJ.2.1
            simp only [Itv.mid]
            linarith
          have hstack' : stackInDomain lo hi
              (⟨J.lo, J.mid⟩ :: ⟨J.mid, J.hi⟩ :: rest) := by
            intro K hK
            rcases List.mem_cons.mp hK with hK₁ | hK₂
            · subst hK₁
              exact ⟨hJ.1, hmid₁, le_trans hmid₂ hJ.2.2⟩
            · rcases List.mem_cons.mp hK₂ with hK₃ | hK₄
              · subst hK₃
                exact ⟨le_trans hJ.1 hmid₁, hmid₂, hJ.2.2⟩
              · exact hrest K hK₄
          exact ih _ hstack' I h
      · simp only [hz, if_false] at h
        exact ih rest hrest I h

/-- **C1.** For every narrow-phase time-of-impact query, whenever the
driver reports `hit = true` the returned `toi` equals `lower(I)` of the
enclosure `I` produced by the certified root finder, and `toi ∈ [0, 1]`
because the search domain is `[0, earliest_toi]` with
`0 ≤ earliest_toi ≤ 1`. -/
theorem computeTimeOfImpact_hit_toi (distance : Itv → Itv)
    (inside : Itv → Bool) (earliestToi tol : ℚ) (fuel : ℕ)
    (h0 : 0 ≤ earliestToi) (h1 : earliestToi ≤ 1)
    (hhit : (computeTimeOfImpact distance inside earliestToi tol fuel).1 = true) :
    ∃ I, intervalRootFinder distance inside ⟨0, earliestToi⟩ tol fuel = some I ∧
      (computeTimeOfImpact distance inside earliestToi tol fuel).2 = I.lo ∧
      0 ≤ I.lo ∧ I.lo ≤ 1 := by
  unfold computeTimeOfImpact at hhit ⊢
  cases hfind : intervalRootFinder distance inside ⟨0, earliestToi⟩ tol fuel with
  | none => rw [hfind] at hhit; simp at hhit
  | some I =>
    have hdom : stackInDomain 0 earliestToi [⟨0, earliestToi⟩] := by
      intro J hJ
      rcases List.mem_cons.mp hJ with hJ₁ | hJ₂
      · subst hJ₁; exact ⟨le_refl 0, h0, le_refl earliestToi⟩
      · simp at hJ₂
    have hmem := intervalRootFinderAux_mem_domain distance inside tol 0
      earliestToi fuel [⟨0, earliestToi⟩] hdom I hfind
    exact ⟨I, rfl, rfl, hmem.1, le_trans (le_trans hmem.2.1 hmem.2.2) h1⟩

/-- Witness for C1 at a concrete query: distance `f(t) = t − 1/2`
(interval extension), inside predicate constantly true, domain `[0, 1]`,
tolerance `1/4`: the driver hits and returns `toi = 1/4 ∈ [0, 1]`. -/
theorem computeTimeOfImpact_hit_toi_witness :
    (0:ℚ) ≤ 1 ∧ (1:ℚ) ≤ 1 ∧
    ∃ I, intervalRootFinder (fun I => ⟨I.lo - 1/2, I.hi - 1/2⟩)
          (fun _ => true) ⟨0, 1⟩ (1/4) 16 = some I ∧
      (computeTimeOfImpact (fun I => ⟨I.lo - 1/2, I.hi - 1/2⟩)
          (fun _ => true) 1 (1/4) 16).2 = I.lo ∧
      0 ≤ I.lo ∧ I.lo ≤ 1 :=
  ⟨le_refl 0 |>.trans zero_le_one, le_refl 1,
    computeTimeOfImpact_hit_toi (fun I => ⟨I.lo - 1/2, I.hi - 1/2⟩)
      (fun _ => true) 1 (1/4) 16 (by norm_num) (by norm_num)
      (by with_unfolding_all rfl)⟩

/-- **C2, counterexample.** Two edges crossing at the origin (interior of
both segments, supporting lines not parallel): the claim says the inside
predicate returns `true` there, but the code throws
`NotImplementedError` instead. -/
theorem isIntersectionInsideEdges_claim_false :
    isIntersectionInsideEdges (Vec3.toIVec3 ⟨-1, 0, 0⟩) (Vec3.toIVec3 ⟨1, 0, 0⟩)
        (Vec3.toIVec3 ⟨0, -1, 0⟩) (Vec3.toIVec3 ⟨0, 1, 0⟩) =
      .error .notImplemented ∧
    segIntersectionInsideBoth ⟨-1, 0, 0⟩ ⟨1, 0, 0⟩ ⟨0, -1, 0⟩ ⟨0, 1, 0⟩ := by
  constructor
  · with_unfolding_all rfl
  · refine ⟨1/2, 1/2, by norm_num, by norm_num, by norm_num, by norm_num, ?_⟩
    simp only [Vec3.add, Vec3.sub, Vec3.smul]
    norm_num

lemma Itv.sub_pt (a b : ℚ) : (Itv.pt a).sub (Itv.pt b) = Itv.pt (a - b) := rfl

lemma Itv.add_pt (a b : ℚ) : (Itv.pt a).add (Itv.pt b) = Itv.pt (a + b) := rfl

lemma Itv.mul_pt (a b : ℚ) : (Itv.pt a).mul (Itv.pt b) = Itv.pt (a * b) := by
  simp [Itv.mul, Itv.pt]

lemma IVec3.sub_toIVec3 (a b : Vec3) :
    (a.toIVec3).sub b.toIVec3 = (a.sub b).toIVec3 := by
  simp [IVec3.sub, Vec3.toIVec3, Vec3.sub, Itv.sub_pt]

lemma IVec3.cross_toIVec3 (a b : Vec3) :
    (a.toIVec3).cross b.toIVec3 = (Vec3.crossQ a b).toIVec3 := by
  simp [IVec3.cross, Vec3.toIVec3, Vec3.crossQ, Itv.mul_pt, Itv.sub_pt]

lemma IVec3.squaredNorm_toIVec3 (a : Vec3) :
    (a.toIVec3).squaredNorm = Itv.pt (a.x * a.x + (a.y * a.y + a.z * a.z)) := by
  simp [IVec3.squaredNorm, Vec3.toIVec3, Itv.mul_pt, Itv.add_pt]

/-- **C2, amended.** The inside predicate of
`compute_edge_edge_time_of_impact` never returns `true`: it returns
`false` exactly when `0` lies in the interval enclosure of `‖r × s‖²`
(in particular whenever the two supporting lines are parallel or
collinear, i.e. `r × s = 0` at degenerate inputs), and otherwise it
raises `NotImplementedError`. -/
theorem isIntersectionInsideEdges_amended :
    (∀ ea0 ea1 eb0 eb1 : IVec3,
      isIntersectionInsideEdges ea0 ea1 eb0 eb1 ≠ .ok true) ∧
    (∀ ea0 ea1 eb0 eb1 : IVec3,
      (((ea1.sub ea0).cross (eb1.sub eb0)).squaredNorm).zeroIn = true →
        isIntersectionInsideEdges ea0 ea1 eb0 eb1 = .ok false) ∧
    (∀ ea0 ea1 eb0 eb1 : IVec3,
      (((ea1.sub ea0).cross (eb1.sub eb0)).squaredNorm).zeroIn = false →
        isIntersectionInsideEdges ea0 ea1 eb0 eb1 = .error .notImplemented) ∧
    (∀ p0 p1 q0 q1 : Vec3, Vec3.crossQ (p1.sub p0) (q1.sub q0) = ⟨0, 0, 0⟩ →
      isIntersectionInsideEdges p0.toIVec3 p1.toIVec3 q0.toIVec3 q1.toIVec3 =
        .ok false) := by
  refine ⟨?_, ?_, ?_, ?_⟩
  · intro ea0 ea1 eb0 eb1
    unfold isIntersectionInsideEdges
    by_cases h : ((((ea1.sub ea0).cross (eb1.sub eb0)).squaredNorm).zeroIn : Bool)
    · simp [h]
    · simp [h]
  · intro ea0 ea1 eb0 eb1 h
    unfold isIntersectionInsideEdges
    simp [h]
  · intro ea0 ea1 eb0 eb1 h
    unfold isIntersectionInsideEdges
    simp [h]
  · intro p0 p1 q0 q1 h
    unfold isIntersectionInsideEdges
    simp only [IVec3.sub_toIVec3, IVec3.cross_toIVec3, h,
      IVec3.squaredNorm_toIVec3]
    simp [Itv.zeroIn, Itv.pt]

/-- Witness for C2's amended theorem at a concrete input: two parallel
edges along the x-axis make the predicate return `false`. -/
theorem isIntersectionInsideEdges_amended_witness :
    isIntersectionInsideEdges (Vec3.toIVec3 ⟨0, 0, 0⟩) (Vec3.toIVec3 ⟨1, 0, 0⟩)
        (Vec3.toIVec3 ⟨0, 1, 0⟩) (Vec3.toIVec3 ⟨1, 1, 0⟩) = .ok false :=
  isIntersectionInsideEdges_amended.2.1 _ _ _ _ (by with_unfolding_all rfl)

lemma earliestImpactAux_eq_none (e : ℕ) :
    ∀ (l : List EdgeEdgeImpact) (i : ℕ),
      earliestImpactAux e l i = none →
      ∀ imp ∈ l, ¬(imp.edge_a = e ∨ imp.edge_b = e) := by
  intro l
  induction l with
  | nil => intro i _ imp hmem; simp at hmem
  | cons a rest ih =>
    intro i h imp hmem
    rw [earliestImpactAux] at h
    by_cases ha : a.edge_a = e ∨ a.edge_b = e
    · exfalso
      simp only [ha, if_true] at h
      cases htail : earliestImpactAux e rest (i + 1) with
      | none => rw [htail] at h; simp at h
      | some jt =>
        obtain ⟨j, t⟩ := jt
        rw [htail] at h
        by_cases hle : a.time ≤ t
        · simp [hle] at h
        · simp [hle] at h
    · simp only [ha, if_false] at h
      rcases List.mem_cons.mp hmem with rfl | hmem'
      · exact ha
      · exact ih (i + 1) h imp hmem'

lemma earliestImpactAux_eq_none_of_not_involved (e : ℕ) :
    ∀ (l : List EdgeEdgeImpact) (i : ℕ),
      (∀ imp ∈ l, ¬(imp.edge_a = e ∨ imp.edge_b = e)) →
      earliestImpactAux e l i = none := by
  intro l
  induction l with
  | nil => intro i _; rfl
  | cons a rest ih =>
    intro i hall
    rw [earliestImpactAux]
    have ha : ¬(a.edge_a = e ∨ a.edge_b = e) :=
      hall a (List.mem_cons_self a rest)
    simp only [ha, if_false]
    exact ih (i + 1) (fun imp hmem => hall imp (List.mem_cons_of_mem a hmem))

lemma earliestImpactAux_eq_some (e : ℕ) :
    ∀ (l : List EdgeEdgeImpact) (i j : ℕ) (t : ℚ),
      earliestImpactAux e l i = some (j, t) →
      ∃ k, k < l.length ∧ j = i + k ∧
        ∃ imp, l[k]? = some imp ∧ (imp.edge_a = e ∨ imp.edge_b = e) := by
  intro l
  induction l with
  | nil => intro i j t h; simp [earliestImpactAux] at h
  | cons a rest ih =>
    intro i j t h
    rw [earliestImpactAux] at h
    by_cases ha : a.edge_a = e ∨ a.edge_b = e
    · simp only [ha, if_true] at h
      cases htail : earliestImpactAux e rest (i + 1) with
      | none =>
        rw [htail] at h
        simp only [Option.some.injEq, Prod.mk.injEq] at h
        refine ⟨0, by simp, by omega, a, by simp, ha⟩
      | some jt =>
        obtain ⟨j', t'⟩ := jt
        rw [htail] at h
        by_cases hle : a.time ≤ t'
        · simp only [hle, if_true, Option.some.injEq, Prod.mk.injEq] at h
          refine ⟨0, by simp, by omega, a, by simp, ha⟩
        · simp only [hle, if_false, Option.some.injEq, Prod.mk.injEq] at h
          obtain ⟨k', hk', hj', imp, himp, hinv⟩ :=
            ih (i + 1) j' t' htail
          refine ⟨k' + 1, by simp; omega, by omega, imp, ?_, hinv⟩
          simpa using himp
    · simp only [ha, if_false] at h
      obtain ⟨k', hk', hj', imp, himp, hinv⟩ := ih (i + 1) j t h
      refine ⟨k' + 1, by simp; omega, by omega, imp, ?_, hinv⟩
      simpa using himp

lemma prune_impacts_getD (impacts : List EdgeEdgeImpact) (n e : ℕ)
    (he : e < n) :
    (prune_impacts impacts n).getD e (-1) =
      match earliestImpactAux e impacts 0 with
      | none => -1
      | some je => (je.1 : ℤ) := by
  unfold prune_impacts
  rw [List.getD_eq_getElem?_getD, List.getElem?_map, List.getElem?_range he]
  rfl

lemma prune_impacts_getD_none (impacts : List EdgeEdgeImpact) (n e : ℕ)
    (he : e < n) (hE : earliestImpactAux e impacts 0 = none) :
    (prune_impacts impacts n).getD e (-1) = -1 := by
  rw [prune_impacts_getD impacts n e he, hE]

lemma prune_impacts_getD_some (impacts : List EdgeEdgeImpact) (n e j : ℕ)
    (t : ℚ) (he : e < n) (hE : earliestImpactAux e impacts 0 = some (j, t)) :
    (prune_impacts impacts n).getD e (-1) = (j : ℤ) := by
  rw [prune_impacts_getD impacts n e he, hE]

lemma prune_impacts_spec (L : List EdgeEdgeImpact) (n e : ℕ) (he : e < n) :
    (0 ≤ (prune_impacts L n).getD e (-1) →
      ∃ imp, L[((prune_impacts L n).getD e (-1)).toNat]? = some imp ∧
        (imp.edge_a = e ∨ imp.edge_b = e)) ∧
    ((prune_impacts L n).getD e (-1) = -1 ↔
      ∀ imp ∈ L, imp.edge_a ≠ e ∧ imp.edge_b ≠ e) := by
  cases hE : earliestImpactAux e L 0 with
  | none =>
    rw [prune_impacts_getD_none L n e he hE]
    constructor
    · intro h; norm_num at h
    · simp only [true_iff]
      intro imp hmem
      have hni := earliestImpactAux_eq_none e L 0 hE imp hmem
      exact ⟨fun h' => hni (Or.inl h'), fun h' => hni (Or.inr h')⟩
  | some jt =>
    obtain ⟨j, t⟩ := jt
    rw [prune_impacts_getD_some L n e j t he hE]
    constructor
    · intro _
      obtain ⟨k, hk, hjk, imp, himp, hinv⟩ :=
        earliestImpactAux_eq_some e L 0 j t hE
      have hjk' : j = k := by omega
      refine ⟨imp, ?_, hinv⟩
      simpa [hjk'] using himp
    · constructor
      · intro h
        exfalso
        omega
      · intro hall
        exfalso
        obtain ⟨k, hk, hjk, imp, himp, hinv⟩ :=
          earliestImpactAux_eq_some e L 0 j t hE
        have hmem : imp ∈ L := List.mem_iff_getElem?.mpr ⟨k, himp⟩
        rcases hinv with h' | h'
        · exact (hall imp hmem).1 h'
        · exact (hall imp hmem).2 h'

/-- **C3.** After `State::detect_edge_vertex_collisions` (EV→EE
conversion followed by `prune_impacts`), for every edge `e`: a
non-negative `edge_impact_map[e]` references an `ee_impacts` record with
`edge_a = e` or `edge_b = e`, and `edge_impact_map[e] = −1` iff edge `e`
appears in no EE impact of this step. -/
theorem detect_edge_vertex_collisions_impact_map (s : State)
    (detected : List EdgeVertexImpact) (e : ℕ) (he : e < s.edges.length) :
    (0 ≤ (s.detect_edge_vertex_collisions detected).edge_impact_map.getD e (-1) →
      ∃ imp, (s.detect_edge_vertex_collisions detected).ee_impacts[
          ((s.detect_edge_vertex_collisions detected).edge_impact_map.getD e
            (-1)).toNat]? = some imp ∧
        (imp.edge_a = e ∨ imp.edge_b = e)) ∧
    ((s.detect_edge_vertex_collisions detected).edge_impact_map.getD e (-1) = -1 ↔
      ∀ imp ∈ (s.detect_edge_vertex_collisions detected).ee_impacts,
        imp.edge_a ≠ e ∧ imp.edge_b ≠ e) := by
  have hmap : (s.detect_edge_vertex_collisions detected).edge_impact_map =
      prune_impacts (convert_edge_vertex_to_edge_edge_impacts s.edges
        (List.insertionSort evLE detected)) s.edges.length := rfl
  have hees : (s.detect_edge_vertex_collisions detected).ee_impacts =
      convert_edge_vertex_to_edge_edge_impacts s.edges
        (List.insertionSort evLE detected) := rfl
  rw [hmap, hees]
  exact prune_impacts_spec _ s.edges.length e he

/-- Witness for C3 at a concrete scene: in `demoState` the detected EV
impact of edge 0 with vertex 2 (an endpoint of edge 1) is converted and
pruned; `edge_impact_map[0]` references an impact involving edge 0. -/
theorem detect_edge_vertex_collisions_impact_map_witness :
    ∃ imp,
      (demoState.detect_edge_vertex_collisions
          [⟨1/2, 0, 2, 1/2⟩]).ee_impacts[
        ((demoState.detect_edge_vertex_collisions
            [⟨1/2, 0, 2, 1/2⟩]).edge_impact_map.getD 0 (-1)).toNat]? =
        some imp ∧ (imp.edge_a = 0 ∨ imp.edge_b = 0) :=
  (detect_edge_vertex_collisions_impact_map demoState [⟨1/2, 0, 2, 1/2⟩] 0
      (by decide)).1
    (of_decide_eq_true (by with_unfolding_all rfl))

/-- **C4.** After `State::detect_edge_vertex_collisions`, the stored
`ev_impacts` list is sorted ascending by impact time `τ`, impacts with
equal `τ` being ordered lexicographically by
`(edge_index, vertex_index)`. -/
theorem detect_edge_vertex_collisions_sorted (s : State)
    (detected : List EdgeVertexImpact) :
    List.Sorted evLE ((s.detect_edge_vertex_collisions detected).ev_impacts) := by
  have hev : (s.detect_edge_vertex_collisions detected).ev_impacts =
      List.insertionSort evLE detected := rfl
  rw [hev]
  exact List.sorted_insertionSort evLE detected

/-- **C9.** Every scene-mutating operation on `State` — `add_vertex`,
`add_edges`, `set_vertex_position`, `move_vertex`, `move_displacement`,
scene loading and scene reset — re-establishes the cleared-impacts
configuration: empty `ev_impacts` and `ee_impacts`, a zero volume vector
of length `|E|`, an `edge_impact_map` of length `|E|` filled with `−1`,
and a zero `volume_grad` of size `(|V|·d) × |E|`. -/
theorem scene_mutations_reset_impacts (s : State) (position : ℚ × ℚ)
    (new_edges : List (ℕ × ℕ)) (vertex_idx : ℕ) (delta : ℚ × ℚ)
    (vs : List (ℚ × ℚ)) (es : List (ℕ × ℕ)) (ds : List (ℚ × ℚ)) :
    impactsCleared (s.add_vertex position) ∧
    impactsCleared (s.add_edges new_edges) ∧
    impactsCleared (s.set_vertex_position vertex_idx position) ∧
    impactsCleared (s.move_vertex vertex_idx delta) ∧
    impactsCleared (s.move_displacement vertex_idx delta) ∧
    impactsCleared (s.load_scene vs es ds) ∧
    impactsCleared s.reset_scene :=
  ⟨⟨rfl, rfl, rfl, rfl, rfl⟩, ⟨rfl, rfl, rfl, rfl, rfl⟩,
   ⟨rfl, rfl, rfl, rfl, rfl⟩, ⟨rfl, rfl, rfl, rfl, rfl⟩,
   ⟨rfl, rfl, rfl, rfl, rfl⟩, ⟨rfl, rfl, rfl, rfl, rfl⟩,
   ⟨rfl, rfl, rfl, rfl, rfl⟩⟩

/-- **C10.** `State::load_scene` keeps the loaded vertices and
displacements exactly as read whenever the bounding box of
`vertices ∪ (vertices + displacements)` fits in the 10×10 canvas;
otherwise it replaces `vertices` by `(vertices − columnwise mean) · s`
and `displacements` by `displacements · s`, with
`s = min(canvas_width·0.5/bbox_x, canvas_height·0.5/bbox_y)`. -/
theorem load_scene_canvas_fit (s : State) (vertices : List (ℚ × ℚ))
    (edges : List (ℕ × ℕ)) (displacements : List (ℚ × ℚ))
    (hcw : s.canvas_width = 10) (hch : s.canvas_height = 10)
    (_hne : vertices ≠ [])
    (_hlen : displacements.length = vertices.length) :
    ((p2sub (colwiseMax (vertices ++ List.zipWith p2add vertices displacements))
        (colwiseMin (vertices ++ List.zipWith p2add vertices
          displacements))).1 ≤ 10 ∧
     (p2sub (colwiseMax (vertices ++ List.zipWith p2add vertices displacements))
        (colwiseMin (vertices ++ List.zipWith p2add vertices
          displacements))).2 ≤ 10 →
      (s.load_scene vertices edges displacements).vertices = vertices ∧
      (s.load_scene vertices edges displacements).displacements =
        displacements) ∧
    (¬((p2sub (colwiseMax (vertices ++ List.zipWith p2add vertices
          displacements))
        (colwiseMin (vertices ++ List.zipWith p2add vertices
          displacements))).1 ≤ 10 ∧
       (p2sub (colwiseMax (vertices ++ List.zipWith p2add vertices
          displacements))
        (colwiseMin (vertices ++ List.zipWith p2add vertices
          displacements))).2 ≤ 10) →
      (s.load_scene vertices edges displacements).vertices =
        vertices.map (fun v =>
          p2smul (ieeeMinDiv (10 * (1/2))
              (p2sub (colwiseMax (vertices ++ List.zipWith p2add vertices
                displacements))
               (colwiseMin (vertices ++ List.zipWith p2add vertices
                displacements))).1
              (10 * (1/2))
              (p2sub (colwiseMax (vertices ++ List.zipWith p2add vertices
                displacements))
               (colwiseMin (vertices ++ List.zipWith p2add vertices
                displacements))).2)
            (p2sub v (colwiseMean (vertices ++ List.zipWith p2add vertices
              displacements)))) ∧
      (s.load_scene vertices edges displacements).displacements =
        displacements.map
          (p2smul (ieeeMinDiv (10 * (1/2))
              (p2sub (colwiseMax (vertices ++ List.zipWith p2add vertices
                displacements))
               (colwiseMin (vertices ++ List.zipWith p2add vertices
                displacements))).1
              (10 * (1/2))
              (p2sub (colwiseMax (vertices ++ List.zipWith p2add vertices
                displacements))
               (colwiseMin (vertices ++ List.zipWith p2add vertices
                displacements))).2))) := by
  have hv : (s.load_scene vertices edges displacements).vertices =
      (fitToCanvas s.canvas_width s.canvas_height vertices displacements).1 :=
    rfl
  have hd : (s.load_scene vertices edges displacements).displacements =
      (fitToCanvas s.canvas_width s.canvas_height vertices displacements).2 :=
    rfl
  rw [hcw, hch] at hv hd
  constructor
  · intro hfit
    have hguard : ¬((p2sub (colwiseMax (vertices ++ List.zipWith p2add
        vertices displacements)) (colwiseMin (vertices ++ List.zipWith p2add
        vertices displacements))).1 > 10 ∨
        (p2sub (colwiseMax (vertices ++ List.zipWith p2add vertices
          displacements)) (colwiseMin (vertices ++ List.zipWith p2add
          vertices displacements))).2 > 10) := by
      push_neg
      exact hfit
    constructor
    · rw [hv]
      unfold fitToCanvas
      simp only [hguard, if_false]
    · rw [hd]
      unfold fitToCanvas
      simp only [hguard, if_false]
  · intro hfit
    have hguard : (p2sub (colwiseMax (vertices ++ List.zipWith p2add
        vertices displacements)) (colwiseMin (vertices ++ List.zipWith p2add
        vertices displacements))).1 > 10 ∨
        (p2sub (colwiseMax (vertices ++ List.zipWith p2add vertices
          displacements)) (colwiseMin (vertices ++ List.zipWith p2add
          vertices displacements))).2 > 10 := by
      by_contra hcon
      push_neg at hcon
      exact hfit ⟨hcon.1, hcon.2⟩
    constructor
    · rw [hv]
      unfold fitToCanvas
      simp only [hguard, if_true]
    · rw [hd]
      unfold fitToCanvas
      simp only [hguard, if_true]

/-- Witness for C10 at a concrete scene that overflows the canvas:
loading vertices `(0,0), (20,0)` with displacements `(0,0), (0,1)` into
`demoState` rescales by `s = min(5/20, 5/1) = 1/4` about the centroid
`(10, 1/4)`. -/
theorem load_scene_canvas_fit_witness :
    (demoState.load_scene [(0, 0), (20, 0)] [(0, 1)]
        [(0, 0), (0, 1)]).vertices = [(-(5/2), -(1/16)), (5/2, -(1/16))] ∧
    (demoState.load_scene [(0, 0), (20, 0)] [(0, 1)]
        [(0, 0), (0, 1)]).displacements = [(0, 0), (0, 1/4)] := by
  have h := (load_scene_canvas_fit demoState [(0, 0), (20, 0)] [(0, 1)]
      [(0, 0), (0, 1)] rfl rfl (by simp) (by rfl)).2
      (of_decide_eq_true (by with_unfolding_all rfl))
  refine ⟨h.1.trans ?_, h.2.trans ?_⟩
  · with_unfolding_all rfl
  · with_unfolding_all rfl

/-- **C6.** `DistanceBarrierRBProblem::eval_mp_g` returns, for every
input `sigma`, a vector of length 1 whose single entry is the 256-bit
multiprecision `+∞`, independent of `sigma`. -/
theorem eval_mp_g_constant_infinity :
    (∀ sigma : List ℚ, eval_mp_g sigma = [⟨MPValue.inf, 256⟩]) ∧
    (∀ sigma : List ℚ, (eval_mp_g sigma).length = 1) ∧
    (∀ sigma sigma' : List ℚ, eval_mp_g sigma = eval_mp_g sigma') :=
  ⟨fun _ => rfl, fun _ => rfl, fun _ _ => rfl⟩

lemma jsonLookup_jsonSet (j : Json) (key : String) (v : JValue) :
    jsonLookup (jsonSet j key v) key = some v := by
  unfold jsonLookup jsonSet
  rw [List.find?_append]
  have hnone : List.find? (fun kv => kv.1 = key)
      (List.filter (fun kv => kv.1 ≠ key) j) = none := by
    rw [List.find?_eq_none]
    intro kv hmem
    have := (List.mem_filter.mp hmem).2
    simp only [decide_not, Bool.not_eq_true', decide_eq_false_iff_not] at this
    simpa using this
  rw [hnone]
  simp [List.find?]

lemma foldl_min_nonneg (rest : List ℚ) :
    ∀ acc : ℚ, 0 ≤ acc → (∀ y ∈ rest, 0 ≤ y) → 0 ≤ rest.foldl min acc := by
  induction rest with
  | nil => intro acc hacc _; exact hacc
  | cons y ys ih =>
    intro acc hacc hall
    have hy : 0 ≤ y := hall y (List.mem_cons_self y ys)
    exact ih (min acc y) (le_min hacc hy)
      (fun z hz => hall z (List.mem_cons_of_mem y hz))

lemma debug_min_distance_nonneg (d : List ℚ) (hd : ∀ x ∈ d, 0 ≤ x)
    (hne : d ≠ []) : 0 ≤ debug_min_distance d := by
  cases d with
  | nil => exact absurd rfl hne
  | cons x rest =>
    exact foldl_min_nonneg rest x (hd x (List.mem_cons_self x rest))
      (fun y hy => hd y (List.mem_cons_of_mem x hy))

/-- **C7.** The JSON object produced by
`DistanceBarrierRBProblem::state()` always contains the key
`min_distance`; its value is `null` exactly when the minimum-distance
query returned its negative sentinel (no distance candidates), and
otherwise it is the computed minimum distance. -/
theorem state_min_distance_export (base : Json) (d : List ℚ)
    (hd : ∀ x ∈ d, 0 ≤ x) :
    (jsonLookup (distanceBarrierState base (debug_min_distance d))
        "min_distance").isSome = true ∧
    (jsonLookup (distanceBarrierState base (debug_min_distance d))
        "min_distance" = some JValue.null ↔ d = []) ∧
    (d ≠ [] →
      jsonLookup (distanceBarrierState base (debug_min_distance d))
        "min_distance" = some (JValue.num (debug_min_distance d))) := by
  by_cases hne : d = []
  · subst hne
    have hmin : debug_min_distance [] = -1 := rfl
    unfold distanceBarrierState
    rw [hmin, if_pos (by norm_num), jsonLookup_jsonSet]
    exact ⟨rfl, by simp, fun h => absurd rfl h⟩
  · have h0 : 0 ≤ debug_min_distance d := debug_min_distance_nonneg d hd hne
    unfold distanceBarrierState
    rw [if_neg (not_lt.mpr h0), jsonLookup_jsonSet]
    refine ⟨rfl, ?_, fun _ => rfl⟩
    constructor
    · intro h; simp at h
    · intro h; exact absurd h hne

/-- Witness for C7 at a concrete distance vector `[1/2, 2]` over an
empty base object: `min_distance` is exported as the number `1/2`. -/
theorem state_min_distance_export_witness :
    jsonLookup (distanceBarrierState [] (debug_min_distance [1/2, 2]))
      "min_distance" = some (JValue.num (debug_min_distance [1/2, 2])) :=
  (state_min_distance_export [] [1/2, 2]
      (by intro x hx; simp at hx; rcases hx with rfl | rfl <;> norm_num)).2.2
    (by simp)

/-- **C8, counterexample.** A well-formed matrix with zero rows and three
columns does not survive the round trip: `to_json` yields the empty list
of rows, and `from_json` of an empty list leaves the output matrix
untouched (a default-constructed 0×0 matrix), losing the column count. -/
theorem matrix_json_roundtrip_claim_false :
    matrix_from_json (matrix_to_json (⟨0, 3, []⟩ : MatrixX ℚ))
        (defaultMatrix ℚ) ≠ (⟨0, 3, []⟩ : MatrixX ℚ) ∧
    (⟨0, 3, []⟩ : MatrixX ℚ).wf := by
  constructor
  · intro h
    simp [matrix_to_json, matrix_from_json, defaultMatrix,
      MatrixX.mk.injEq] at h
  · exact ⟨rfl, by intro row h; simp at h⟩

/-- **C8, amended.** Deserializing the serialization reproduces every
scene matrix bit-for-bit provided it has at least one row or no columns
(a 0×m matrix with m > 0 collapses to the 0×0 default because
`from_json` returns early on an empty row list), and reproduces every
vector exactly. -/
theorem matrix_vector_json_roundtrip_amended :
    (∀ (T : Type) (M : MatrixX T), M.wf → 0 < M.rows ∨ M.cols = 0 →
      matrix_from_json (matrix_to_json M) (defaultMatrix T) = M) ∧
    (∀ (T : Type) (v : List T), vector_from_json (vector_to_json v) = v) := by
  constructor
  · intro T M hwf hrc
    unfold matrix_to_json matrix_from_json
    by_cases hlen : M.data.length = 0
    · rw [if_pos hlen]
      obtain ⟨r, c, data⟩ := M
      have hdata : data = [] := List.length_eq_zero.mp hlen
      subst hdata
      have hr0 : r = 0 := by simpa using hwf.1.symm
      rcases hrc with hr | hc
      · exfalso; simp only [hr0] at hr; exact lt_irrefl 0 hr
      · simp only at hc
        simp [defaultMatrix, hr0, hc]
    · rw [if_neg hlen]
      obtain ⟨r, c, data⟩ := M
      cases data with
      | nil => simp at hlen
      | cons row rest =>
        have h1 : (row :: rest).length = r := hwf.1
        have h2 : row.length = c := hwf.2 row (List.mem_cons_self row rest)
        simp [MatrixX.mk.injEq, h1, h2]
  · intro T v
    rfl

/-- Witness for C8's amended theorem at a concrete 2×2 rational matrix:
the round trip through the JSON row lists is the identity. -/
theorem matrix_vector_json_roundtrip_amended_witness :
    matrix_from_json (matrix_to_json (⟨2, 2, [[1, 2], [3, 4]]⟩ : MatrixX ℚ))
        (defaultMatrix ℚ) = (⟨2, 2, [[1, 2], [3, 4]]⟩ : MatrixX ℚ) :=
  matrix_vector_json_roundtrip_amended.1 ℚ ⟨2, 2, [[1, 2], [3, 4]]⟩
    ⟨rfl, by intro row h; simp at h; rcases h with rfl | rfl <;> rfl⟩
    (Or.inl (by norm_num))

lemma point_line_signed_distance_swap (p a b : ℝ × ℝ) :
    point_line_signed_distance p b a = -point_line_signed_distance p a b := by
  simp only [point_line_signed_distance, dot2, r2sub, perp2]
  ring

lemma dot2_sub_swap (a b : ℝ × ℝ) :
    dot2 (r2sub a b) (r2sub a b) = dot2 (r2sub b a) (r2sub b a) := by
  simp only [dot2, r2sub]
  ring

lemma evConstraintSet_swap (Vi Vj Vk Ui Uj Uk : ℝ × ℝ) :
    evConstraintSet Vj Vi Vk Uj Ui Uk = evConstraintSet Vi Vj Vk Ui Uj Uk := by
  ext t
  simp only [evConstraintSet, Set.mem_setOf_eq]
  set p := trajAt Vk Uk t with hp
  set a := trajAt Vi Ui t with ha
  set b := trajAt Vj Uj t with hb
  have hdist : (point_line_signed_distance p b a = 0) ↔
      (point_line_signed_distance p a b = 0) := by
    rw [point_line_signed_distance_swap]
    constructor <;> intro h <;> linarith
  have halpha : (0 ≤ alphaProj p b a ∧ alphaProj p b a ≤ 1) ↔
      (0 ≤ alphaProj p a b ∧ alphaProj p a b ≤ 1) := by
    by_cases hD : dot2 (r2sub b a) (r2sub b a) = 0
    · have hD' : dot2 (r2sub a b) (r2sub a b) = 0 := by
        rw [dot2_sub_swap]; exact hD
      simp [alphaProj, hD, hD']
    · have hD' : dot2 (r2sub a b) (r2sub a b) ≠ 0 := by
        rw [dot2_sub_swap]; exact hD
      have hab : alphaProj p b a = 1 - alphaProj p a b := by
        unfold alphaProj
        rw [eq_sub_iff_add_eq, div_add_div _ _ hD' hD, div_eq_one_iff_eq
          (mul_ne_zero hD' hD)]
        simp only [dot2, r2sub]
        ring
      rw [hab]
      constructor <;> rintro ⟨h1, h2⟩ <;> exact ⟨by linarith, by linarith⟩
  constructor
  · rintro ⟨h0, h1, hd, ha1, ha2⟩
    obtain ⟨hb1, hb2⟩ := halpha.mp ⟨ha1, ha2⟩
    exact ⟨h0, h1, hdist.mp hd, hb1, hb2⟩
  · rintro ⟨h0, h1, hd, ha1, ha2⟩
    obtain ⟨hb1, hb2⟩ := halpha.mpr ⟨ha1, ha2⟩
    exact ⟨h0, h1, hdist.mpr hd, hb1, hb2⟩

/-- **C5.** Swapping the two edge endpoints and their displacements,
`(Vi,Ui) ↔ (Vj,Uj)`, in a 2D edge-vertex time-of-impact query yields the
same hit result and exactly the same time of impact (hence identical
within any tolerance): the swapped query's constraint set — and with it
both its non-emptiness and its least element — coincides with the
original's. -/
theorem ev_toi_edge_symmetry (Vi Vj Vk Ui Uj Uk : ℝ × ℝ) :
    (evHasImpact Vj Vi Vk Uj Ui Uk ↔ evHasImpact Vi Vj Vk Ui Uj Uk) ∧
    ∀ τ : ℝ, evTimeOfImpactIs Vj Vi Vk Uj Ui Uk τ ↔
      evTimeOfImpactIs Vi Vj Vk Ui Uj Uk τ := by
  have h := evConstraintSet_swap Vi Vj Vk Ui Uj Uk
  constructor
  · unfold evHasImpact
    rw [h]
  · intro τ
    unfold evTimeOfImpactIs
    rw [h]

end RigidIPC
